import Mathlib

/-
Shallow embedding of the daily-report batch processor:
distributed lock protocol (lockUtils.ts), batched retrying
processing engine (reportUtils.ts), and the run coordinator
(functions/dailyReportProcessor.ts and functions/dailyReportProcessor/index.ts).

Effectful store calls are modelled by explicit oracles: an attempt oracle
gives the outcome of each transformation attempt, a store environment gives
the outcome of each blob-store call, and sleeps are collected as a list of
millisecond delays.
-/

namespace DailyReportSpec

/-- MAX_RETRIES from utils/constants (value 3, as fixed in the repository source). -/
def MAX_RETRIES : Nat := 3

/-- RETRY_DELAY_MS from utils/constants (base backoff delay, 1000 ms). -/
def RETRY_DELAY_MS : Nat := 1000

/-- batchSize local constant of processReportsWithRetry (10). -/
def batchSize : Nat := 10

/-- ProcessingResult interface from utils/types: fileName, success, optional
error message, optional retryCount. -/
structure ProcessingResult where
  fileName : String
  success : Bool
  error : Option String := none
  retryCount : Option Nat := none
deriving Repr, DecidableEq

/-- ProcessingStats interface from utils/types. -/
structure ProcessingStats where
  totalFiles : Nat
  successfulFiles : Nat
  failedFiles : Nat
  retryCount : Nat
  processingTime : Int
deriving Repr, DecidableEq

/-- JavaScript expression `x?.message || dflt`: the default is used when the
message is absent or the empty string (falsy). -/
def jsOrElse (x : Option String) (dflt : String) : String :=
  match x with
  | none => dflt
  | some v => if v = "" then dflt else v

/-- One transformation attempt, as an oracle indexed by the value of the
retryCount counter at the moment the attempt is made (0, 1, 2, ...).
`Except.ok` means processReport resolved; `Except.error m` means it threw an
error whose message is `m`. -/
def AttemptOracle : Type := Nat → Except String Unit

/-- Body of the `while (retryCount <= MAX_RETRIES)` loop of
processReportWithRetry (reportUtils.ts lines 137-175).  State: the current
`retryCount` and `lastError`.  Returns the ProcessingResult together with the
list of backoff delays passed to `sleep`, in order. -/
def processReportWithRetryGo (attempt : AttemptOracle) (fileName : String)
    (retryCount : Nat) (lastError : Option String) : ProcessingResult × List Nat :=
  if h : retryCount ≤ MAX_RETRIES then
    match attempt retryCount with
    | Except.ok _ =>
        ({ fileName := fileName, success := true, retryCount := some retryCount }, [])
    | Except.error e =>
        if retryCount + 1 ≤ MAX_RETRIES then
          let delay := RETRY_DELAY_MS * 2 ^ ((retryCount + 1) - 1)
          let rest := processReportWithRetryGo attempt fileName (retryCount + 1) (some e)
          (rest.1, delay :: rest.2)
        else
          processReportWithRetryGo attempt fileName (retryCount + 1) (some e)
  else
    ({ fileName := fileName, success := false,
       error := some (jsOrElse lastError "Unknown error"),
       retryCount := some retryCount }, [])
termination_by MAX_RETRIES + 1 - retryCount
decreasing_by all_goals omega

/-- processReportWithRetry (reportUtils.ts): starts the loop with
retryCount = 0 and no recorded error. -/
def processReportWithRetry (attempt : AttemptOracle) (fileName : String) :
    ProcessingResult × List Nat :=
  processReportWithRetryGo attempt fileName 0 none

/-- Per-run transformation environment: the attempt oracle of each file name. -/
def BatchOracle : Type := String → AttemptOracle

/-- Batch loop of processReportsWithRetry (reportUtils.ts lines 54-80):
`for (let i = 0; i < reportFiles.length; i += batchSize)`, each batch is
`reportFiles.slice(i, i + batchSize)`, processed by Promise.all (which
preserves the order of the mapped array), and the batch results are pushed
onto the accumulator in order.  The fixed 100 ms pacing sleep between batches
affects no outcome and is not recorded here. -/
def processReportsWithRetryGo (attempt : BatchOracle) (reportFiles : List String)
    (i : Nat) : List ProcessingResult :=
  if h : i < reportFiles.length then
    (((reportFiles.drop i).take batchSize).map
        (fun file => (processReportWithRetry (attempt file) file).1))
      ++ processReportsWithRetryGo attempt reportFiles (i + batchSize)
  else []
termination_by reportFiles.length - i
decreasing_by all_goals (have hb : 0 < batchSize := by decide) <;> omega

/-- processReportsWithRetry (reportUtils.ts): runs the batch loop from i = 0. -/
def processReportsWithRetry (attempt : BatchOracle) (reportFiles : List String) :
    List ProcessingResult :=
  processReportsWithRetryGo attempt reportFiles 0

/-- Outcomes of the blob-store calls made by checkConcurrentExecution
(lockUtils.ts lines 7-34).  `Except.error m` models the call rejecting with an
error whose message is `m`; timestamps are milliseconds since the epoch. -/
structure LockStoreEnv where
  existsResult : Except String Bool
  lastModified : Except String Int
  deleteResult : Except String Unit
  now : Int

/-- Observable behaviour of one checkConcurrentExecution call: the returned
boolean, whether lockBlob.delete() was invoked, and whether it resolved. -/
structure LockCheckResult where
  result : Bool
  deleteCalled : Bool
  deletedLock : Bool
deriving Repr, DecidableEq

/-- checkConcurrentExecution (lockUtils.ts): exists / getProperties /
stale-delete sequence; every rejected store call is caught and turned into a
false return (fail-open).  The staleness test is `lockAge > 3600000` with
`lockAge = Date.now() - properties.lastModified.getTime()`. -/
def checkConcurrentExecution (env : LockStoreEnv) : LockCheckResult :=
  match env.existsResult with
  | Except.error _ => { result := false, deleteCalled := false, deletedLock := false }
  | Except.ok ex =>
    if ex then
      match env.lastModified with
      | Except.error _ => { result := false, deleteCalled := false, deletedLock := false }
      | Except.ok lm =>
        let lockAge := env.now - lm
        if lockAge > 3600000 then
          match env.deleteResult with
          | Except.error _ => { result := false, deleteCalled := true, deletedLock := false }
          | Except.ok _ => { result := false, deleteCalled := true, deletedLock := true }
        else
          { result := true, deleteCalled := false, deletedLock := false }
    else
      { result := false, deleteCalled := false, deletedLock := false }

/-- Loop body of listReportFiles (reportUtils.ts lines 30-49).  The listing is
modelled as the sequence of events produced by the async iterator: each event
is either a yielded blob name or the iteration throwing.  `reportFiles` is the
accumulator array; names ending in ".json" are pushed, a thrown error is
re-thrown (after logging) and no partial array is returned. -/
def listReportFilesGo (reportFiles : List String) :
    List (Except String String) → Except String (List String)
  | [] => Except.ok reportFiles
  | Except.error e :: _ => Except.error e
  | Except.ok blobName :: rest =>
      listReportFilesGo
        (if blobName.endsWith ".json" then reportFiles ++ [blobName] else reportFiles) rest

/-- listReportFiles (reportUtils.ts): starts with an empty accumulator. -/
def listReportFiles (listing : List (Except String String)) : Except String (List String) :=
  listReportFilesGo [] listing

/-- generateProcessingStats (reportUtils.ts lines 288-303).  `nowMs` models
the Date.now() call inside the function. -/
def generateProcessingStats (results : List ProcessingResult)
    (startTime nowMs : Int) : ProcessingStats :=
  { totalFiles := results.length
    successfulFiles := (results.filter (fun r => r.success)).length
    failedFiles := (results.filter (fun r => !r.success)).length
    retryCount := results.foldl (fun sum r => sum + r.retryCount.getD 0) 0
    processingTime := nowMs - startTime }

/-- Rendering of a nonnegative rational with exactly two fractional digits, as
Number.prototype.toFixed(2) renders it: the integer n closest to q times 100
(the larger n on a tie, per the ECMAScript toFixed algorithm) printed with an
implied division by 100.  The source computes on IEEE doubles; rationals are
used here and agree on the quantities this development exercises. -/
def toFixed2 (q : ℚ) : String :=
  let n : ℤ := Int.floor (q * 100 + 1 / 2)
  let whole := n / 100
  let frac := (n % 100).toNat
  toString whole ++ "." ++ (if frac < 10 then "0" ++ toString frac else toString frac)

/-- The successRate field logged by logProcessingResults (reportUtils.ts line
316): `stats.totalFiles > 0 ? (stats.successfulFiles / stats.totalFiles * 100).toFixed(2) + "%" : "0%"`. -/
def successRateString (stats : ProcessingStats) : String :=
  if stats.totalFiles > 0 then
    toFixed2 ((stats.successfulFiles : ℚ) / (stats.totalFiles : ℚ) * 100) ++ "%"
  else
    "0%"

/-- Outcomes of the store-dependent steps of one run of the coordinator.
checkConcurrentExecution never throws (fail-open), hence a plain Bool; the
steps that can throw are the client construction, createProcessingLock,
initializeContainers and listReportFiles.  `connectOkFinally` is the outcome
of the second BlobServiceClient.fromConnectionString performed inside the
finally block of the index.ts variant. -/
structure RunEnv where
  connectOk : Bool
  checkResult : Bool
  createLockOk : Bool
  initContainersOk : Bool
  listResult : Except String (List String)
  connectOkFinally : Bool

/-- Observable lock-related behaviour of one coordinator run. -/
structure RunTrace where
  checkCalled : Bool
  createLockCalled : Bool
  lockCreated : Bool
  processCalled : Bool
  removeLockCalled : Bool
  threw : Bool
deriving Repr, DecidableEq

/-- dailyReportProcessor from src/functions/dailyReportProcessor.ts (the
variant with the `lockCreated` flag, the one exercised by the unit tests).
Control flow: connect, isHeld check with early return, createProcessingLock
setting lockCreated, initializeContainers, listReportFiles, early return on
empty list, then processing / stats / cleanup (all total in this model); the
finally block calls removeProcessingLock only when the client was constructed
and lockCreated is set.  Exceptions from the try body are logged and
re-thrown. -/
def dailyReportProcessorGuarded (env : RunEnv) : RunTrace :=
  if !env.connectOk then
    { checkCalled := false, createLockCalled := false, lockCreated := false,
      processCalled := false, removeLockCalled := false, threw := true }
  else if env.checkResult then
    { checkCalled := true, createLockCalled := false, lockCreated := false,
      processCalled := false, removeLockCalled := false, threw := false }
  else if !env.createLockOk then
    { checkCalled := true, createLockCalled := true, lockCreated := false,
      processCalled := false, removeLockCalled := false, threw := true }
  else if !env.initContainersOk then
    { checkCalled := true, createLockCalled := true, lockCreated := true,
      processCalled := false, removeLockCalled := true, threw := true }
  else
    match env.listResult with
    | Except.error _ =>
        { checkCalled := true, createLockCalled := true, lockCreated := true,
          processCalled := false, removeLockCalled := true, threw := true }
    | Except.ok [] =>
        { checkCalled := true, createLockCalled := true, lockCreated := true,
          processCalled := false, removeLockCalled := true, threw := false }
    | Except.ok (_ :: _) =>
        { checkCalled := true, createLockCalled := true, lockCreated := true,
          processCalled := true, removeLockCalled := true, threw := false }

/-- dailyReportProcessor from src/functions/dailyReportProcessor/index.ts (the
variant without the `lockCreated` flag).  Same try body, but its finally block
unconditionally reconstructs the client and calls removeProcessingLock on
every exit path; removeProcessingLock is reached exactly when that second
fromConnectionString succeeds. -/
def dailyReportProcessorIndex (env : RunEnv) : RunTrace :=
  let fin := env.connectOkFinally
  if !env.connectOk then
    { checkCalled := false, createLockCalled := false, lockCreated := false,
      processCalled := false, removeLockCalled := fin, threw := true }
  else if env.checkResult then
    { checkCalled := true, createLockCalled := false, lockCreated := false,
      processCalled := false, removeLockCalled := fin, threw := false }
  else if !env.createLockOk then
    { checkCalled := true, createLockCalled := true, lockCreated := false,
      processCalled := false, removeLockCalled := fin, threw := true }
  else if !env.initContainersOk then
    { checkCalled := true, createLockCalled := true, lockCreated := true,
      processCalled := false, removeLockCalled := fin, threw := true }
  else
    match env.listResult with
    | Except.error _ =>
        { checkCalled := true, createLockCalled := true, lockCreated := true,
          processCalled := false, removeLockCalled := fin, threw := true }
    | Except.ok [] =>
        { checkCalled := true, createLockCalled := true, lockCreated := true,
          processCalled := false, removeLockCalled := fin, threw := false }
    | Except.ok (_ :: _) =>
        { checkCalled := true, createLockCalled := true, lockCreated := true,
          processCalled := true, removeLockCalled := fin, threw := false }

/-
Helper lemmas (shared; none of them is a claim theorem, witness or
counterexample).
-/

theorem listReportFilesGo_ok (names : List String) :
    ∀ acc : List String,
      listReportFilesGo acc (names.map Except.ok) =
        Except.ok (acc ++ names.filter (fun b => b.endsWith ".json")) := by
  induction names with
  | nil => intro acc; simp [listReportFilesGo]
  | cons b rest ih =>
      intro acc
      cases hb : b.endsWith ".json" <;>
        simp [listReportFilesGo, hb, ih, List.filter_cons, List.append_assoc]

theorem listReportFilesGo_error (e : String) (post : List (Except String String))
    (names : List String) :
    ∀ acc : List String,
      listReportFilesGo acc (names.map Except.ok ++ Except.error e :: post) =
        Except.error e := by
  induction names with
  | nil => intro acc; simp [listReportFilesGo]
  | cons b rest ih =>
      intro acc
      cases hb : b.endsWith ".json" <;> simp [listReportFilesGo, hb, ih]

theorem filter_success_length (results : List ProcessingResult) :
    (results.filter (fun r => r.success)).length
      + (results.filter (fun r => !r.success)).length = results.length := by
  induction results with
  | nil => rfl
  | cons r rest ih =>
      cases hr : r.success <;> simp [List.filter_cons, hr] <;> omega

theorem foldl_retry_sum (results : List ProcessingResult) :
    ∀ init : Nat,
      results.foldl (fun sum r => sum + r.retryCount.getD 0) init
        = init + (results.map (fun r => r.retryCount.getD 0)).sum := by
  induction results with
  | nil => intro init; simp
  | cons r rest ih => intro init; simp [ih]; omega

theorem processReportsWithRetryGo_eq_map (attempt : BatchOracle) (files : List String) :
    ∀ fuel i, files.length - i ≤ fuel →
      processReportsWithRetryGo attempt files i =
        (files.drop i).map (fun file => (processReportWithRetry (attempt file) file).1) := by
  intro fuel
  induction fuel with
  | zero =>
      intro i hi
      have hlen : files.length ≤ i := by omega
      rw [processReportsWithRetryGo.eq_def]
      simp [Nat.not_lt.mpr hlen, List.drop_eq_nil_of_le hlen]
  | succ n ih =>
      intro i hi
      rw [processReportsWithRetryGo.eq_def]
      by_cases h : i < files.length
      · have hb : 0 < batchSize := by decide
        rw [dif_pos h, ih (i + batchSize) (by omega), ← List.map_append]
        congr 1
        rw [← List.drop_drop, List.take_append_drop]
      · have hlen : files.length ≤ i := by omega
        rw [dif_neg h]
        simp [List.drop_eq_nil_of_le hlen]

theorem processReportWithRetryGo_success (attempt : AttemptOracle) (f : String) (j : Nat)
    (hj : j ≤ MAX_RETRIES) (hok : attempt j = Except.ok ()) :
    ∀ fuel rc lastErr, j - rc ≤ fuel → rc ≤ j →
      (∀ n, rc ≤ n → n < j → ∃ e, attempt n = Except.error e) →
      (processReportWithRetryGo attempt f rc lastErr).1 =
        { fileName := f, success := true, retryCount := some j } := by
  intro fuel
  induction fuel with
  | zero =>
      intro rc lastErr hfuel hrc hfail
      have hrj : rc = j := by omega
      subst hrj
      rw [processReportWithRetryGo.eq_def]
      simp [Nat.le_trans hrc hj, hok]
  | succ n ih =>
      intro rc lastErr hfuel hrc hfail
      by_cases hrj : rc = j
      · subst hrj
        rw [processReportWithRetryGo.eq_def]
        simp [Nat.le_trans hrc hj, hok]
      · have hlt : rc < j := by omega
        obtain ⟨e, he⟩ := hfail rc (Nat.le_refl rc) hlt
        rw [processReportWithRetryGo.eq_def]
        have hle : rc ≤ MAX_RETRIES := by omega
        rw [dif_pos hle, he]
        have hrest := ih (rc + 1) (some e) (by omega) (by omega)
          (fun m hm hmj => hfail m (by omega) hmj)
        by_cases h2 : rc + 1 ≤ MAX_RETRIES <;> simp [h2, hrest]

/-
Claim theorems.
-/

/-- C1.  The claim holds for the dailyReportProcessor.ts variant (the one the
unit tests exercise): there, removeProcessingLock is invoked exactly when
createProcessingLock succeeded.  The index.ts variant violates the claim: its
finally block invokes removeProcessingLock even when the isHeld check returned
true and the run exited early (first two conjuncts) and even when
createProcessingLock threw (next two conjuncts). -/
theorem claim_C1 :
    (dailyReportProcessorIndex
      { connectOk := true, checkResult := true, createLockOk := true,
        initContainersOk := true, listResult := Except.ok [],
        connectOkFinally := true }).removeLockCalled = true
    ∧ (dailyReportProcessorIndex
      { connectOk := true, checkResult := true, createLockOk := true,
        initContainersOk := true, listResult := Except.ok [],
        connectOkFinally := true }).createLockCalled = false
    ∧ (dailyReportProcessorIndex
      { connectOk := true, checkResult := false, createLockOk := false,
        initContainersOk := true, listResult := Except.ok [],
        connectOkFinally := true }).removeLockCalled = true
    ∧ (dailyReportProcessorIndex
      { connectOk := true, checkResult := false, createLockOk := false,
        initContainersOk := true, listResult := Except.ok [],
        connectOkFinally := true }).lockCreated = false
    ∧ (∀ env : RunEnv,
        (dailyReportProcessorGuarded env).removeLockCalled
          = (dailyReportProcessorGuarded env).lockCreated) := by
  refine ⟨rfl, rfl, rfl, rfl, ?_⟩
  rintro ⟨c, chk, cl, ic, lr, cf⟩
  cases c <;> cases chk <;> cases cl <;> cases ic <;> cases cf <;>
    rcases lr with e | (_ | ⟨x, xs⟩) <;> rfl

/-- C2.  On an input whose transformation fails on every attempt, the code
performs MAX_RETRIES + 1 = 4 attempts and returns the final value of the
retryCount counter, which is 4, not MAX_RETRIES = 3 as the claim states; the
success flag and the last error message behave as claimed. -/
theorem claim_C2 :
    (processReportWithRetry (fun _ => Except.error "boom") "c.json").1 =
      { fileName := "c.json", success := false, error := some "boom",
        retryCount := some 4 }
    ∧ MAX_RETRIES = 3 := by
  constructor
  · simp [processReportWithRetry, processReportWithRetryGo, MAX_RETRIES, jsOrElse]
  · rfl

/-- C3.  The batch loop returns exactly one Outcome per input item, in input
order: it equals the plain map of the per-item retrying processor over the
input list, and in particular has the same length; the per-item processor is
a total function (it catches every transformation error), so no item failure
aborts the batch. -/
theorem claim_C3 (attempt : BatchOracle) (reportFiles : List String) :
    processReportsWithRetry attempt reportFiles =
      reportFiles.map (fun file => (processReportWithRetry (attempt file) file).1)
    ∧ (processReportsWithRetry attempt reportFiles).length = reportFiles.length := by
  have h := processReportsWithRetryGo_eq_map attempt reportFiles reportFiles.length 0
    (by omega)
  constructor
  · simpa [processReportsWithRetry] using h
  · simp [processReportsWithRetry, h]

/-- C7.  Whenever a store call actually made during the check throws (the
existence check, the property fetch on an existing token, or the stale-token
delete), checkConcurrentExecution returns false instead of propagating. -/
theorem claim_C7 (env : LockStoreEnv)
    (h : (∃ e, env.existsResult = Except.error e)
      ∨ (env.existsResult = Except.ok true ∧ ∃ e, env.lastModified = Except.error e)
      ∨ (env.existsResult = Except.ok true
          ∧ ∃ lm, env.lastModified = Except.ok lm ∧ 3600000 < env.now - lm
              ∧ ∃ e, env.deleteResult = Except.error e)) :
    (checkConcurrentExecution env).result = false := by
  rcases h with ⟨e, he⟩ | ⟨hex, e, he⟩ | ⟨hex, lm, hlm, hage, e, he⟩
  · simp [checkConcurrentExecution, he]
  · simp [checkConcurrentExecution, hex, he]
  · simp [checkConcurrentExecution, hex, hlm, he, hage]

/-- Witness for C7 at a concrete environment whose existence check throws. -/
theorem claim_C7_witness :
    (checkConcurrentExecution
      { existsResult := Except.error "Storage unavailable",
        lastModified := Except.ok 0, deleteResult := Except.ok (),
        now := 0 }).result = false :=
  claim_C7 _ (Or.inl ⟨"Storage unavailable", rfl⟩)

/-- C9.  listReportFiles keeps exactly the yielded blob names ending in
".json", in listing order, and a listing failure is re-thrown: no partial
list is returned. -/
theorem claim_C9 :
    (∀ names : List String,
      listReportFiles (names.map Except.ok)
        = Except.ok (names.filter (fun b => b.endsWith ".json")))
    ∧ (∀ (pre : List String) (e : String) (post : List (Except String String)),
        listReportFiles (pre.map Except.ok ++ Except.error e :: post)
          = Except.error e) := by
  constructor
  · intro names
    simpa [listReportFiles] using listReportFilesGo_ok names []
  · intro pre e post
    simpa [listReportFiles] using listReportFilesGo_error e post pre []

/-- C10.  generateProcessingStats counts every outcome exactly once (total =
length, successes + failures = total) and sums every outcome's retryCount,
defaulting a missing retryCount to 0. -/
theorem claim_C10 (results : List ProcessingResult) (startTime nowMs : Int) :
    (generateProcessingStats results startTime nowMs).totalFiles = results.length
    ∧ (generateProcessingStats results startTime nowMs).successfulFiles
        + (generateProcessingStats results startTime nowMs).failedFiles
        = (generateProcessingStats results startTime nowMs).totalFiles
    ∧ (generateProcessingStats results startTime nowMs).retryCount
        = (results.map (fun r => r.retryCount.getD 0)).sum := by
  refine ⟨rfl, ?_, ?_⟩
  · simpa [generateProcessingStats] using filter_success_length results
  · simpa [generateProcessingStats] using foldl_retry_sum results 0

/-- C4 counterexample.  At age exactly equal to the threshold (token exists,
last-modified 0, now = 3600000 ms) the code returns true, although the age is
not below the threshold: the biconditional of the claim, read with a strict
"below", is false at this input. -/
theorem claim_C4_counterexample :
    (checkConcurrentExecution
      { existsResult := Except.ok true, lastModified := Except.ok 0,
        deleteResult := Except.ok (), now := 3600000 }).result = true
    ∧ ¬ ((3600000 : Int) - 0 < 3600000) := by
  constructor
  · rfl
  · decide

/-- C4 as amended: with all store calls succeeding, the call returns true iff
the token exists and its age is at most (not strictly below) the 1-hour
threshold; a strictly older token is deleted and the call returns false; a
token within the threshold is left untouched. -/
theorem claim_C4 (ex : Bool) (lm now : Int) :
    ((checkConcurrentExecution
        { existsResult := Except.ok ex, lastModified := Except.ok lm,
          deleteResult := Except.ok (), now := now }).result = true
      ↔ ex = true ∧ now - lm ≤ 3600000)
    ∧ (ex = true → 3600000 < now - lm →
        (checkConcurrentExecution
          { existsResult := Except.ok ex, lastModified := Except.ok lm,
            deleteResult := Except.ok (), now := now }).deletedLock = true
        ∧ (checkConcurrentExecution
          { existsResult := Except.ok ex, lastModified := Except.ok lm,
            deleteResult := Except.ok (), now := now }).result = false)
    ∧ (ex = true → now - lm ≤ 3600000 →
        (checkConcurrentExecution
          { existsResult := Except.ok ex, lastModified := Except.ok lm,
            deleteResult := Except.ok (), now := now }).deleteCalled = false) := by
  cases ex <;> by_cases hage : (3600000 : Int) < now - lm <;>
    simp [checkConcurrentExecution, hage] <;> omega

/-- Witness for C4 at concrete timestamps: a fresh token (age 1000 ms) is
reported held and untouched; a stale token (age 4000000 ms) is deleted and
reported not held. -/
theorem claim_C4_witness :
    (checkConcurrentExecution
      { existsResult := Except.ok true, lastModified := Except.ok 0,
        deleteResult := Except.ok (), now := 1000 }).result = true
    ∧ ((checkConcurrentExecution
        { existsResult := Except.ok true, lastModified := Except.ok 0,
          deleteResult := Except.ok (), now := 4000000 }).deletedLock = true
      ∧ (checkConcurrentExecution
        { existsResult := Except.ok true, lastModified := Except.ok 0,
          deleteResult := Except.ok (), now := 4000000 }).result = false)
    ∧ (checkConcurrentExecution
      { existsResult := Except.ok true, lastModified := Except.ok 0,
        deleteResult := Except.ok (), now := 1000 }).deleteCalled = false :=
  ⟨(claim_C4 true 0 1000).1.mpr ⟨rfl, by decide⟩,
   (claim_C4 true 0 4000000).2.1 rfl (by decide),
   (claim_C4 true 0 1000).2.2 rfl (by decide)⟩

/-- C5.  If the transformation succeeds on attempt k (attempts counted from
1, k at most MAX_RETRIES + 1, all earlier attempts failing), the outcome is
success = true with retryCount = k - 1. -/
theorem claim_C5 (attempt : AttemptOracle) (f : String) (k : Nat)
    (hk1 : 1 ≤ k) (hk : k ≤ MAX_RETRIES + 1)
    (hfail : ∀ n, n < k - 1 → ∃ e, attempt n = Except.error e)
    (hok : attempt (k - 1) = Except.ok ()) :
    (processReportWithRetry attempt f).1.success = true
    ∧ (processReportWithRetry attempt f).1.retryCount = some (k - 1) := by
  have h := processReportWithRetryGo_success attempt f (k - 1) (by omega) hok
    (k - 1) 0 none (by omega) (by omega) (fun n _ hn => hfail n hn)
  rw [processReportWithRetry] at *
  rw [h]
  exact ⟨rfl, rfl⟩

/-- Witness for C5: success on the second attempt after one failure yields
retryCount = 1. -/
theorem claim_C5_witness :
    (processReportWithRetry
      (fun n => if n = 0 then Except.error "x" else Except.ok ()) "a.json").1.success = true
    ∧ (processReportWithRetry
      (fun n => if n = 0 then Except.error "x" else Except.ok ()) "a.json").1.retryCount
        = some 1 :=
  claim_C5 (fun n => if n = 0 then Except.error "x" else Except.ok ()) "a.json" 2
    (by omega) (by decide)
    (fun n hn => ⟨"x", by simp [Nat.lt_one_iff.mp hn]⟩) rfl

/-- Lower bound on the final retryCount counter: the loop never decreases it. -/
theorem processReportWithRetryGo_retryCount_ge (attempt : AttemptOracle) (f : String) :
    ∀ fuel rc lastErr, MAX_RETRIES + 1 - rc ≤ fuel →
      rc ≤ (processReportWithRetryGo attempt f rc lastErr).1.retryCount.getD 0 := by
  intro fuel
  induction fuel with
  | zero =>
      intro rc lastErr hf
      have hgt : ¬ rc ≤ MAX_RETRIES := by omega
      rw [processReportWithRetryGo.eq_def, dif_neg hgt]
      simp
  | succ n ih =>
      intro rc lastErr hf
      rw [processReportWithRetryGo.eq_def]
      by_cases hle : rc ≤ MAX_RETRIES
      · rw [dif_pos hle]
        rcases hA : attempt rc with e | u
        · have hge := ih (rc + 1) (some e) (by omega)
          by_cases h2 : rc + 1 ≤ MAX_RETRIES <;> simp [h2] <;> omega
        · simp
      · rw [dif_neg hle]
        simp

/-- The list of backoff delays produced from counter value rc onward:
one delay RETRY_DELAY_MS * 2 ^ (rc + a) per failed attempt that is followed
by another attempt. -/
theorem processReportWithRetryGo_delays (attempt : AttemptOracle) (f : String) :
    ∀ fuel rc lastErr, MAX_RETRIES + 1 - rc ≤ fuel →
      (processReportWithRetryGo attempt f rc lastErr).2 =
        (List.range
            (min ((processReportWithRetryGo attempt f rc lastErr).1.retryCount.getD 0)
              MAX_RETRIES - rc)).map
          (fun a => RETRY_DELAY_MS * 2 ^ (rc + a)) := by
  intro fuel
  induction fuel with
  | zero =>
      intro rc lastErr hf
      have hgt : ¬ rc ≤ MAX_RETRIES := by omega
      rw [processReportWithRetryGo.eq_def, dif_neg hgt]
      have hmin : min rc MAX_RETRIES - rc = 0 := by omega
      simp [hmin]
  | succ n ih =>
      intro rc lastErr hf
      rw [processReportWithRetryGo.eq_def]
      by_cases hle : rc ≤ MAX_RETRIES
      · rw [dif_pos hle]
        rcases hA : attempt rc with e | u
        · have hge := processReportWithRetryGo_retryCount_ge attempt f (n + 1) (rc + 1)
            (some e) (by omega)
          have hIH := ih (rc + 1) (some e) (by omega)
          by_cases h2 : rc + 1 ≤ MAX_RETRIES
          · simp only [h2, if_true]
            simp only [hIH]
            have hmin : min ((processReportWithRetryGo attempt f (rc + 1) (some e)).1.retryCount.getD 0)
                MAX_RETRIES - rc
                = (min ((processReportWithRetryGo attempt f (rc + 1) (some e)).1.retryCount.getD 0)
                    MAX_RETRIES - (rc + 1)) + 1 := by omega
            simp only [hmin, List.range_succ_eq_map, List.map_cons, List.map_map]
            refine List.cons_eq_cons.mpr ⟨?_, ?_⟩
            · have he : rc + 1 - 1 = rc + 0 := by omega
              rw [he]
            · apply List.map_congr_left
              intro a ha
              simp only [Function.comp_apply]
              congr 1
              congr 1
              omega
          · simp only [h2, if_false]
            have hgt2 : ¬ rc + 1 ≤ MAX_RETRIES := h2
            have hIH2 := hIH
            rw [hIH2]
            have hmin2 : min ((processReportWithRetryGo attempt f (rc + 1) (some e)).1.retryCount.getD 0)
                MAX_RETRIES - (rc + 1) = 0 := by omega
            have hmin3 : min ((processReportWithRetryGo attempt f (rc + 1) (some e)).1.retryCount.getD 0)
                MAX_RETRIES - rc = 0 := by omega
            simp [hmin2, hmin3]
        · have hmin : min rc MAX_RETRIES - rc = 0 := by omega
          simp [hmin]
      · rw [dif_neg hle]
        have hmin : min rc MAX_RETRIES - rc = 0 := by omega
        simp [hmin]

/-- C6.  The backoff delays slept by processReportWithRetry are exactly
RETRY_DELAY_MS * 2 ^ (a - 1) after the a-th failed attempt for a = 1, ...,
min(failed attempts, MAX_RETRIES): one delay per failed attempt that is
followed by another attempt, so none after the final failed attempt; on an
always-failing input the delays are 1000, 2000, 4000 ms. -/
theorem claim_C6 :
    (∀ (attempt : AttemptOracle) (f : String),
      (processReportWithRetry attempt f).2 =
        (List.range
            (min ((processReportWithRetry attempt f).1.retryCount.getD 0) MAX_RETRIES)).map
          (fun a => RETRY_DELAY_MS * 2 ^ a))
    ∧ (processReportWithRetry (fun _ => Except.error "e") "c.json").2
        = [1000, 2000, 4000] := by
  constructor
  · intro attempt f
    have h := processReportWithRetryGo_delays attempt f (MAX_RETRIES + 1) 0 none (by omega)
    rw [processReportWithRetry, h]
    simp
  · simp [processReportWithRetry, processReportWithRetryGo, MAX_RETRIES, RETRY_DELAY_MS]

/-- C8.  The logged success-rate string is the two-decimal rendering of
successfulFiles / totalFiles * 100 followed by a percent sign when totalFiles
is positive (3 total, 2 successful gives "66.67%"), and the literal "0%" when
totalFiles is zero, so the division is never taken with a zero denominator. -/
theorem claim_C8 :
    successRateString
      { totalFiles := 3, successfulFiles := 2, failedFiles := 1,
        retryCount := 0, processingTime := 0 } = "66.67%"
    ∧ (∀ stats : ProcessingStats, stats.totalFiles = 0 → successRateString stats = "0%")
    ∧ (∀ stats : ProcessingStats, 0 < stats.totalFiles →
        successRateString stats =
          toFixed2 ((stats.successfulFiles : ℚ) / (stats.totalFiles : ℚ) * 100) ++ "%") := by
  refine ⟨?_, ?_, ?_⟩
  · simp only [successRateString, toFixed2]
    norm_num
    rfl
  · intro stats h
    simp [successRateString, h]
  · intro stats h
    simp [successRateString, h]

/-- Witness for C8: a run with zero totals logs the literal "0%". -/
theorem claim_C8_witness :
    successRateString
      { totalFiles := 0, successfulFiles := 0, failedFiles := 0,
        retryCount := 0, processingTime := 0 } = "0%" :=
  claim_C8.2.1 _ rfl

end DailyReportSpec
